import Mathlib

/-!
Verification of the in-process TTL cache (`SimpleCache`) and the request
rate limiter (`RateLimiter`) found in the repository's code snippets.

The JavaScript classes are embedded shallowly: the mutable `Map` becomes an
association list threaded through each operation, `Date.now()` becomes an
explicit `now : Int` argument (epoch milliseconds), and JavaScript runtime
values are modelled by the inductive `JSValue` (which includes `null` and
`undefined`, both of which the code uses as results).
-/

/-- Model of the JavaScript values the cache stores and returns.
`null` is what `SimpleCache.get` returns on a miss, and `undefined` is the
result of a JavaScript method body with no `return` statement. -/
inductive JSValue where
  | undefined
  | null
  | bool (b : Bool)
  | num (n : Int)
  | str (s : String)
deriving DecidableEq

/-- `Map.prototype.get`: first binding of `k`, if any. -/
def assocFind {α : Type} (m : List (String × α)) (k : String) : Option α :=
  match m with
  | [] => none
  | (k1, v) :: rest => if k1 = k then some v else assocFind rest k

/-- `Map.prototype.set`: replace the binding of `k` in place, or append it. -/
def assocSet {α : Type} (m : List (String × α)) (k : String) (v : α) :
    List (String × α) :=
  match m with
  | [] => [(k, v)]
  | (k1, v1) :: rest =>
    if k1 = k then (k, v) :: rest else (k1, v1) :: assocSet rest k v

/-- The removal effect of `Map.prototype.delete` (its Boolean result is
modelled at the call sites that use it). -/
def assocDelete {α : Type} (m : List (String × α)) (k : String) :
    List (String × α) :=
  match m with
  | [] => []
  | (k1, v1) :: rest =>
    if k1 = k then rest else (k1, v1) :: assocDelete rest k

/-- One entry of `SimpleCache`: the object `{value, expiresAt}` built by
`set`. -/
structure CacheItem where
  value : JSValue
  expiresAt : Int
deriving DecidableEq

/-- The `SimpleCache` class: configured `ttl` plus the backing `Map`. -/
structure SimpleCache where
  ttl : Int
  cache : List (String × CacheItem)
deriving DecidableEq

/-- `constructor(ttl = 60000)`: stores `ttl` unvalidated, empty map.
(The JavaScript default argument `60000` is supplied explicitly by callers
of this model.) -/
def SimpleCache.mkCache (ttl : Int) : SimpleCache := ⟨ttl, []⟩

/-- `set(key, value)`: store `{value, expiresAt: Date.now() + this.ttl}`. -/
def SimpleCache.set (c : SimpleCache) (key : String) (value : JSValue)
    (now : Int) : SimpleCache :=
  { c with cache := assocSet c.cache key ⟨value, now + c.ttl⟩ }

/-- A JavaScript call `set(key, value, ttlMs)` with a third argument: the
method declares only two parameters, so the extra argument is ignored. -/
def SimpleCache.setWithTtl (c : SimpleCache) (key : String) (value : JSValue)
    (ttlMs : Int) (now : Int) : SimpleCache :=
  c.set key value now

/-- `get(key)`: `null` on a miss; on a hit, lazily evict and return `null`
when `Date.now() > item.expiresAt`, otherwise return the stored value.
The pair carries the result and the possibly updated cache state. -/
def SimpleCache.get (c : SimpleCache) (key : String) (now : Int) :
    JSValue × SimpleCache :=
  match assocFind c.cache key with
  | none => (JSValue.null, c)
  | some item =>
    if now > item.expiresAt then
      (JSValue.null, { c with cache := assocDelete c.cache key })
    else
      (item.value, c)

/-- `delete(key) { this.cache.delete(key); }`: the body discards the Boolean
produced by `Map.prototype.delete` and has no `return`, so the call's result
is `undefined`. -/
def SimpleCache.delete (c : SimpleCache) (key : String) :
    JSValue × SimpleCache :=
  (JSValue.undefined, { c with cache := assocDelete c.cache key })

/-- `clear()`: drop every entry. -/
def SimpleCache.clear (c : SimpleCache) : SimpleCache := { c with cache := [] }

/-- The `RateLimiter` class: configuration plus the per-identifier `Map`
from identifier to the array of remembered request timestamps. -/
structure RateLimiter where
  maxRequests : Int
  windowMs : Int
  requests : List (String × List Int)
deriving DecidableEq

/-- `constructor(maxRequests, windowMs)`: stores both numbers unvalidated,
empty map. -/
def RateLimiter.mkLimiter (maxRequests windowMs : Int) : RateLimiter :=
  ⟨maxRequests, windowMs, []⟩

/-- `isAllowed(identifier)`: read the remembered timestamps (`[]` when the
identifier is absent, from `this.requests.get(identifier) || []`), keep only
those with `now - time < this.windowMs`, reject without writing when already
at `maxRequests`, otherwise remember the kept timestamps plus `now` and
allow. -/
def RateLimiter.isAllowed (rl : RateLimiter) (identifier : String)
    (now : Int) : Bool × RateLimiter :=
  let userRequests := (assocFind rl.requests identifier).getD []
  let recentRequests := userRequests.filter (fun time => now - time < rl.windowMs)
  if (recentRequests.length : Int) ≥ rl.maxRequests then
    (false, rl)
  else
    (true, { rl with requests := assocSet rl.requests identifier (recentRequests ++ [now]) })

/-- The stored timestamp list for one identifier, with the code's `|| []`
defaulting. -/
def reqsOf (rl : RateLimiter) (id : String) : List Int :=
  (assocFind rl.requests id).getD []

/-- The per-identifier core of `isAllowed`, acting on that identifier's
timestamp list alone. -/
def stepId (maxRequests windowMs : Int) (L : List Int) (now : Int) :
    Bool × List Int :=
  let recent := L.filter (fun time => now - time < windowMs)
  if (recent.length : Int) ≥ maxRequests then (false, L)
  else (true, recent ++ [now])

/-- Run the per-identifier core over a sequence of call times, recording
each call's time and verdict. -/
def runId (maxRequests windowMs : Int) (L : List Int) (times : List Int) :
    List (Int × Bool) :=
  match times with
  | [] => []
  | t :: ts =>
    let r := stepId maxRequests windowMs L t
    (t, r.1) :: runId maxRequests windowMs r.2 ts

/-- Run a sequence of `isAllowed` calls (identifier, time) against a
limiter, recording each call with its verdict. -/
def runCalls (rl : RateLimiter) (calls : List (String × Int)) :
    List (String × Int × Bool) :=
  match calls with
  | [] => []
  | (id, t) :: rest =>
    let r := rl.isAllowed id t
    (id, t, r.1) :: runCalls r.2 rest

/-- The limiter state left behind by a sequence of `isAllowed` calls. -/
def runCallsState (rl : RateLimiter) (calls : List (String × Int)) :
    RateLimiter :=
  match calls with
  | [] => rl
  | (id, t) :: rest => runCallsState (rl.isAllowed id t).2 rest

/-- Membership of a time in the half-open interval `[a, a + windowMs)`. -/
def inWindow (a windowMs t : Int) : Bool :=
  decide (a ≤ t ∧ t < a + windowMs)

/-- A recorded per-identifier call that fell in the interval and was
allowed. -/
def hitIn (a windowMs : Int) (r : Int × Bool) : Bool :=
  inWindow a windowMs r.1 && r.2

/-- A recorded limiter call for identifier `id` that fell in the interval
and was allowed. -/
def hitFor (id : String) (a windowMs : Int) (r : String × Int × Bool) : Bool :=
  decide (r.1 = id) && inWindow a windowMs r.2.1 && r.2.2

/-- Project a call sequence onto the times of the calls made for `id`. -/
def projId (id : String) (c : String × Int) : Option Int :=
  if c.1 = id then some c.2 else none

/-- A cache state whose backing map binds each key at most once (every
state reachable through the class's interface is of this shape, since a
JavaScript `Map` keys uniquely). -/
def SimpleCache.WellFormed (c : SimpleCache) : Prop :=
  (c.cache.map Prod.fst).Nodup

instance (c : SimpleCache) : Decidable c.WellFormed := by
  unfold SimpleCache.WellFormed; infer_instance

theorem assocFind_assocSet_self {α : Type} (m : List (String × α)) (k : String)
    (v : α) : assocFind (assocSet m k v) k = some v := by
  induction m with
  | nil => simp [assocSet, assocFind]
  | cons hd tl ih =>
    obtain ⟨k1, v1⟩ := hd
    by_cases h : k1 = k <;> simp [assocSet, assocFind, h, ih]

theorem assocFind_assocSet_ne {α : Type} (m : List (String × α)) (k k2 : String)
    (v : α) (h : k2 ≠ k) : assocFind (assocSet m k v) k2 = assocFind m k2 := by
  have h2 : k ≠ k2 := Ne.symm h
  induction m with
  | nil => simp [assocSet, assocFind, h2]
  | cons hd tl ih =>
    obtain ⟨k1, v1⟩ := hd
    by_cases hk : k1 = k
    · subst hk
      simp [assocSet, assocFind, h2]
    · simp only [assocSet, if_neg hk, assocFind]
      rw [ih]

theorem assocFind_eq_none_of_not_mem {α : Type} (m : List (String × α))
    (k : String) (h : k ∉ m.map Prod.fst) : assocFind m k = none := by
  induction m with
  | nil => rfl
  | cons hd tl ih =>
    obtain ⟨k1, v1⟩ := hd
    simp only [List.map_cons, List.mem_cons] at h
    push_neg at h
    simp [assocFind, Ne.symm h.1, ih h.2]

theorem assocFind_assocDelete_self {α : Type} (m : List (String × α))
    (k : String) (h : (m.map Prod.fst).Nodup) :
    assocFind (assocDelete m k) k = none := by
  induction m with
  | nil => rfl
  | cons hd tl ih =>
    obtain ⟨k1, v1⟩ := hd
    simp only [List.map_cons, List.nodup_cons] at h
    by_cases h1 : k1 = k
    · subst h1
      simp [assocDelete, assocFind_eq_none_of_not_mem tl k1 h.1]
    · simp [assocDelete, assocFind, h1, ih h.2]

theorem isAllowed_fst (rl : RateLimiter) (id : String) (now : Int) :
    (rl.isAllowed id now).1 =
      (stepId rl.maxRequests rl.windowMs (reqsOf rl id) now).1 := by
  by_cases h : ((((assocFind rl.requests id).getD []).filter
        (fun time => now - time < rl.windowMs)).length : Int) ≥ rl.maxRequests <;>
    simp [RateLimiter.isAllowed, stepId, reqsOf, h]

theorem reqsOf_isAllowed_self (rl : RateLimiter) (id : String) (now : Int) :
    reqsOf (rl.isAllowed id now).2 id =
      (stepId rl.maxRequests rl.windowMs (reqsOf rl id) now).2 := by
  by_cases h : ((((assocFind rl.requests id).getD []).filter
        (fun time => now - time < rl.windowMs)).length : Int) ≥ rl.maxRequests <;>
    simp [RateLimiter.isAllowed, stepId, reqsOf, h, assocFind_assocSet_self]

theorem reqsOf_isAllowed_ne (rl : RateLimiter) (j id : String) (now : Int)
    (h : id ≠ j) :
    reqsOf (rl.isAllowed j now).2 id = reqsOf rl id := by
  by_cases hc : ((((assocFind rl.requests j).getD []).filter
        (fun time => now - time < rl.windowMs)).length : Int) ≥ rl.maxRequests <;>
    simp [RateLimiter.isAllowed, reqsOf, hc, assocFind_assocSet_ne _ _ _ _ h]

theorem isAllowed_maxRequests (rl : RateLimiter) (j : String) (now : Int) :
    (rl.isAllowed j now).2.maxRequests = rl.maxRequests := by
  by_cases hc : ((((assocFind rl.requests j).getD []).filter
        (fun time => now - time < rl.windowMs)).length : Int) ≥ rl.maxRequests <;>
    simp [RateLimiter.isAllowed, hc]

theorem isAllowed_windowMs (rl : RateLimiter) (j : String) (now : Int) :
    (rl.isAllowed j now).2.windowMs = rl.windowMs := by
  by_cases hc : ((((assocFind rl.requests j).getD []).filter
        (fun time => now - time < rl.windowMs)).length : Int) ≥ rl.maxRequests <;>
    simp [RateLimiter.isAllowed, hc]

theorem runId_out_of_window (maxRequests windowMs a : Int) :
    ∀ (times L : List Int), (∀ u ∈ times, inWindow a windowMs u = false) →
      (runId maxRequests windowMs L times).countP (hitIn a windowMs) = 0 := by
  intro times
  induction times with
  | nil => intro L _; rfl
  | cons t ts ih =>
    intro L h
    have ht : hitIn a windowMs (t, (stepId maxRequests windowMs L t).1) = false := by
      simp [hitIn, h t (List.mem_cons_self t ts)]
    simp only [runId, List.countP_cons, ht]
    simp only [Bool.false_eq_true, if_false, Nat.add_zero]
    exact ih _ (fun u hu => h u (List.mem_cons_of_mem _ hu))

theorem runId_window_bound (maxRequests windowMs a : Int) :
    ∀ (times L : List Int),
      List.Pairwise (fun t u => t ≤ u) times →
      (∀ t ∈ L, ∀ u ∈ times, t ≤ u) →
      (L.countP (inWindow a windowMs) : Int) ≤ maxRequests →
      ((runId maxRequests windowMs L times).countP (hitIn a windowMs) : Int)
          + L.countP (inWindow a windowMs) ≤ maxRequests := by
  intro times
  induction times with
  | nil =>
    intro L _ _ hL
    simpa [runId] using hL
  | cons now ts ih =>
    intro L hsort hle hL
    rw [List.pairwise_cons] at hsort
    obtain ⟨hnowts, hts⟩ := hsort
    by_cases hrej : (((L.filter (fun time => now - time < windowMs)).length : Int)
        ≥ maxRequests)
    · have hstep : stepId maxRequests windowMs L now = (false, L) := by
        simp [stepId, hrej]
      have hhead : hitIn a windowMs (now, false) = false := by
        simp [hitIn]
      simp only [runId, hstep, List.countP_cons, hhead]
      simp only [Bool.false_eq_true, if_false, Nat.add_zero]
      exact ih L hts (fun t ht u hu => hle t ht u (List.mem_cons_of_mem _ hu)) hL
    · have hlen : ((L.filter (fun time => now - time < windowMs)).length : Int)
          < maxRequests := lt_of_not_ge hrej
      have hstep : stepId maxRequests windowMs L now =
          (true, L.filter (fun time => now - time < windowMs) ++ [now]) := by
        simp only [stepId]
        rw [if_neg hrej]
      have hle2 : ∀ t ∈ L.filter (fun time => now - time < windowMs) ++ [now],
          ∀ u ∈ ts, t ≤ u := by
        intro t ht u hu
        rcases List.mem_append.1 ht with hf | hs
        · exact hle t (List.mem_of_mem_filter hf) u (List.mem_cons_of_mem _ hu)
        · rw [List.mem_singleton.1 hs]
          exact hnowts u hu
      by_cases h1 : now < a
      · -- the call precedes the interval, so nothing is in the window yet
        have hL0 : L.countP (inWindow a windowMs) = 0 := by
          rw [List.countP_eq_zero]
          intro t ht
          have := hle t ht now (List.mem_cons_self _ _)
          simp only [inWindow, decide_eq_true_eq]
          omega
        have hL20 : (L.filter (fun time => now - time < windowMs)
            ++ [now]).countP (inWindow a windowMs) = 0 := by
          rw [List.countP_eq_zero]
          intro t ht
          rcases List.mem_append.1 ht with hf | hs
          · have htL := List.mem_of_mem_filter hf
            have := hle t htL now (List.mem_cons_self _ _)
            simp only [inWindow, decide_eq_true_eq]
            omega
          · rw [List.mem_singleton.1 hs]
            simp only [inWindow, decide_eq_true_eq]
            omega
        have hhead : hitIn a windowMs (now, true) = false := by
          simp only [hitIn, inWindow, Bool.and_true, decide_eq_false_iff_not]
          omega
        have h0max : (0 : Int) ≤ maxRequests := by
          rw [hL0] at hL
          simpa using hL
        have hih := ih _ hts hle2 (by rw [hL20]; simpa using h0max)
        rw [hL20] at hih
        simp only [runId, hstep, List.countP_cons, hhead]
        simp only [Bool.false_eq_true, if_false, Nat.add_zero]
        rw [hL0]
        simpa using hih
      · by_cases h2 : now < a + windowMs
        · -- the call lands inside the interval and is admitted
          have hwin : inWindow a windowMs now = true := by
            simp only [inWindow, decide_eq_true_eq]
            omega
          have hkeep : (L.filter (fun time => now - time < windowMs)).countP
              (inWindow a windowMs) = L.countP (inWindow a windowMs) := by
            rw [List.countP_filter]
            refine List.countP_congr ?_
            intro x _
            simp only [inWindow, Bool.and_eq_true, decide_eq_true_eq]
            omega
          have hL2 : (L.filter (fun time => now - time < windowMs)
              ++ [now]).countP (inWindow a windowMs)
              = L.countP (inWindow a windowMs) + 1 := by
            rw [List.countP_append, hkeep]
            simp [List.countP_cons, hwin]
          have hcle : L.countP (inWindow a windowMs)
              ≤ (L.filter (fun time => now - time < windowMs)).length := by
            rw [← hkeep]
            exact List.countP_le_length _
          have hpre : (((L.filter (fun time => now - time < windowMs)
              ++ [now]).countP (inWindow a windowMs) : Nat) : Int)
              ≤ maxRequests := by
            rw [hL2]
            push_cast
            omega
          have hih := ih _ hts hle2 hpre
          rw [hL2] at hih
          have hhead : hitIn a windowMs (now, true) = true := by
            simp [hitIn, hwin]
          simp only [runId, hstep, List.countP_cons, hhead, if_true]
          push_cast
          push_cast at hih
          omega
        · -- the call is at or past the interval's end: no later call can hit it
          have hrest : (runId maxRequests windowMs
              (L.filter (fun time => now - time < windowMs) ++ [now]) ts).countP
              (hitIn a windowMs) = 0 := by
            refine runId_out_of_window maxRequests windowMs a ts _ ?_
            intro u hu
            have := hnowts u hu
            simp only [inWindow, decide_eq_false_iff_not]
            omega
          have hhead : hitIn a windowMs (now, true) = false := by
            simp only [hitIn, inWindow, Bool.and_true, decide_eq_false_iff_not]
            omega
          simp only [runId, hstep, List.countP_cons, hhead, hrest]
          simp only [Bool.false_eq_true, if_false, Nat.add_zero]
          simpa using hL

theorem runCalls_proj (id : String) (a maxRequests windowMs : Int) :
    ∀ (calls : List (String × Int)) (rl : RateLimiter),
      rl.maxRequests = maxRequests → rl.windowMs = windowMs →
      (runCalls rl calls).countP (hitFor id a windowMs) =
        (runId maxRequests windowMs (reqsOf rl id)
          (calls.filterMap (projId id))).countP (hitIn a windowMs) := by
  intro calls
  induction calls with
  | nil => intro rl _ _; rfl
  | cons c rest ih =>
    obtain ⟨j, t⟩ := c
    intro rl hm hw
    have hm2 : (rl.isAllowed j t).2.maxRequests = maxRequests := by
      rw [isAllowed_maxRequests, hm]
    have hw2 : (rl.isAllowed j t).2.windowMs = windowMs := by
      rw [isAllowed_windowMs, hw]
    have hihs := ih (rl.isAllowed j t).2 hm2 hw2
    by_cases hj : j = id
    · subst hj
      have hproj : projId j (j, t) = some t := by simp [projId]
      have hself := reqsOf_isAllowed_self rl j t
      rw [hm, hw] at hself
      have hfst := isAllowed_fst rl j t
      rw [hm, hw] at hfst
      have hhead : hitFor j a windowMs (j, t, (rl.isAllowed j t).1)
          = hitIn a windowMs (t, (stepId maxRequests windowMs (reqsOf rl j) t).1) := by
        simp [hitFor, hitIn, hfst]
      simp only [runCalls, List.filterMap_cons, hproj, runId,
        List.countP_cons, hhead]
      rw [hihs, hself]
    · have hne : id ≠ j := fun hh => hj hh.symm
      have hproj : projId id (j, t) = none := by simp [projId, hj]
      have hhead : hitFor id a windowMs (j, t, (rl.isAllowed j t).1) = false := by
        simp [hitFor, hj]
      have hreq := reqsOf_isAllowed_ne rl j id t hne
      simp only [runCalls, List.filterMap_cons, hproj, List.countP_cons, hhead]
      simp only [Bool.false_eq_true, if_false, Nat.add_zero]
      rw [hihs, hreq]

/-- C9: for every identifier and every sequence of `isAllowed` calls at
non-decreasing times, at most `maxRequests` of the calls for that identifier
whose times fall within any half-open interval `[a, a + windowMs)` return
`true`: the implementation is a sliding window over retained timestamps. -/
theorem C9_sliding_window_bound (maxRequests windowMs : Int)
    (calls : List (String × Int)) (id : String) (a : Int)
    (hmax : 0 ≤ maxRequests)
    (hchron : List.Pairwise (fun c d => c.2 ≤ d.2) calls) :
    (((runCalls (RateLimiter.mkLimiter maxRequests windowMs) calls).countP
        (hitFor id a windowMs) : Nat) : Int) ≤ maxRequests := by
  rw [runCalls_proj id a maxRequests windowMs calls _ rfl rfl]
  have hproj : List.Pairwise (fun t u => t ≤ u)
      (calls.filterMap (projId id)) := by
    rw [List.pairwise_filterMap]
    refine hchron.imp ?_
    intro c d h b hb b2 hb2
    simp only [projId, Option.mem_def] at hb hb2
    split at hb
    · cases hb
      split at hb2
      · cases hb2
        exact h
      · exact Option.noConfusion hb2
    · exact Option.noConfusion hb
  have h0 : ((List.countP (inWindow a windowMs) ([] : List Int) : Nat) : Int)
      ≤ maxRequests := by simpa using hmax
  have hb := runId_window_bound maxRequests windowMs a
    (calls.filterMap (projId id)) [] hproj
    (fun t ht => absurd ht (List.not_mem_nil t)) h0
  simpa using hb

/-- Witness for C9: with `maxRequests = 2`, `windowMs = 10` and calls for
`"x"` at times 0, 3, 5, 11, at most 2 calls inside `[0, 10)` are allowed. -/
theorem C9_sliding_window_bound_witness :
    (0 : Int) ≤ 2 ∧
    List.Pairwise (fun c d => c.2 ≤ d.2)
      [("x", (0 : Int)), ("x", 3), ("x", 5), ("x", 11)] ∧
    (((runCalls (RateLimiter.mkLimiter 2 10)
        [("x", 0), ("x", 3), ("x", 5), ("x", 11)]).countP
        (hitFor "x" 0 10) : Nat) : Int) ≤ 2 :=
  ⟨by decide, by decide,
    C9_sliding_window_bound 2 10 [("x", 0), ("x", 3), ("x", 5), ("x", 11)]
      "x" 0 (by decide) (by decide)⟩

/-- C6: with `maxRequests = 3` and `windowMs = 1000`, five consecutive
`isAllowed("x")` calls at the same instant yield
`[true, true, true, false, false]`. -/
theorem C6_five_calls_sequence :
    (runCalls (RateLimiter.mkLimiter 3 1000)
        [("x", 0), ("x", 0), ("x", 0), ("x", 0), ("x", 0)]).map
      (fun r => r.2.2) = [true, true, true, false, false] := by
  decide

/-- Counterexample to C1: the stored state is a timestamp list, not a
`{count, windowStart}` pair, and a call one full window after the window's
first request does not reset to a fresh window.  With `maxRequests = 2`,
`windowMs = 10` and calls for `"x"` at 0 and 5, the window started at 0;
the call at 10 satisfies `now - windowStart >= windowMs`, yet afterwards
the stored state is `[5, 10]` (two remembered requests), not the fresh
window `[10]` the claim demands, and a fourth call at 13 is rejected even
though the claim's fixed-window reset would admit it as the second request
of the window begun at 12. -/
theorem C1_counterexample :
    (runCalls (RateLimiter.mkLimiter 2 10)
        [("x", 0), ("x", 5), ("x", 10)]).map (fun r => r.2.2)
      = [true, true, true] ∧
    reqsOf (runCallsState (RateLimiter.mkLimiter 2 10)
        [("x", 0), ("x", 5), ("x", 10)]) "x" = [5, 10] ∧
    reqsOf (runCallsState (RateLimiter.mkLimiter 2 10)
        [("x", 0), ("x", 5), ("x", 10)]) "x" ≠ [10] ∧
    (runCalls (RateLimiter.mkLimiter 2 10)
        [("x", 0), ("x", 5), ("x", 10), ("x", 13)]).map (fun r => r.2.2)
      = [true, true, true, false] := by
  decide

/-- C1 as amended: when a call at time `now` finds every remembered
timestamp of the identifier at least `windowMs` old (the whole remembered
window is stale) and `maxRequests` is positive, the state is reset to the
single fresh timestamp `[now]` and the call is allowed.  The algorithm is
sliding-window over retained timestamps, not fixed-window. -/
theorem C1_amended_stale_window_reset (rl : RateLimiter) (id : String)
    (now : Int) (hmax : 0 < rl.maxRequests)
    (hstale : ∀ t ∈ reqsOf rl id, now - t ≥ rl.windowMs) :
    (rl.isAllowed id now).1 = true ∧
    reqsOf (rl.isAllowed id now).2 id = [now] := by
  have hnil : (reqsOf rl id).filter (fun time => now - time < rl.windowMs)
      = [] := by
    rw [List.filter_eq_nil_iff]
    intro t ht
    simp only [decide_eq_true_eq, not_lt]
    exact hstale t ht
  constructor
  · rw [isAllowed_fst]
    simp only [stepId, hnil]
    rw [if_neg (by simpa using hmax)]
  · rw [reqsOf_isAllowed_self]
    simp only [stepId, hnil]
    rw [if_neg (by simpa using hmax)]
    simp

/-- Witness for the amended C1: one request for `"x"` at time 0 with
`maxRequests = 1`, `windowMs = 10`; at time 10 the remembered timestamp is
a full window old, so the call is allowed and the state resets to `[10]`. -/
theorem C1_amended_stale_window_reset_witness :
    (0 : Int) < 1 ∧
    (∀ t ∈ reqsOf ((RateLimiter.mkLimiter 1 10).isAllowed "x" 0).2 "x",
        (10 : Int) - t ≥ 10) ∧
    ((((RateLimiter.mkLimiter 1 10).isAllowed "x" 0).2.isAllowed "x" 10).1
        = true ∧
      reqsOf (((RateLimiter.mkLimiter 1 10).isAllowed "x" 0).2.isAllowed
        "x" 10).2 "x" = [10]) :=
  ⟨by decide, by decide,
    C1_amended_stale_window_reset ((RateLimiter.mkLimiter 1 10).isAllowed "x" 0).2
      "x" 10 (by decide) (by decide)⟩

/-- Counterexample to C8: constructing a cache with a non-positive
`defaultTtl` and a limiter with `maxRequests = 0` succeeds without any
configuration error (the constructors store the values unvalidated), and
the invalid configuration is first observable at call time: the cache built
with `ttl = -5` misses immediately after a `set`, and the limiter built
with `maxRequests = 0` rejects its very first call. -/
theorem C8_counterexample :
    (SimpleCache.mkCache (-5)).ttl = -5 ∧
    (((SimpleCache.mkCache (-5)).set "k" (JSValue.num 1) 0).get "k" 0).1
      = JSValue.null ∧
    (RateLimiter.mkLimiter 0 1000).maxRequests = 0 ∧
    ((RateLimiter.mkLimiter 0 1000).isAllowed "x" 0).1 = false := by
  decide

/-- C8 as amended: the constructors perform no validation — any `ttl`,
`maxRequests` and `windowMs` (including non-positive values) are stored
as-is and construction always succeeds; the effect of a bad configuration
appears only at call time, e.g. a limiter with `maxRequests ≤ 0` rejects
every call. -/
theorem C8_amended_no_construction_validation (t m w : Int) :
    (SimpleCache.mkCache t).ttl = t ∧
    (SimpleCache.mkCache t).cache = [] ∧
    (RateLimiter.mkLimiter m w).maxRequests = m ∧
    (RateLimiter.mkLimiter m w).windowMs = w ∧
    (m ≤ 0 → ∀ (id : String) (now : Int),
      ((RateLimiter.mkLimiter m w).isAllowed id now).1 = false) := by
  refine ⟨rfl, rfl, rfl, rfl, ?_⟩
  intro hm id now
  have h0 : ((([] : List Int).filter
      (fun time => now - time < w)).length : Int) ≥ m := by
    simpa using hm
  simp only [RateLimiter.isAllowed, RateLimiter.mkLimiter, assocFind,
    Option.getD_none]
  rw [if_pos h0]

/-- Witness for the amended C8: concrete unvalidated constructions, and the
zero-quota limiter rejecting its first call. -/
theorem C8_amended_no_construction_validation_witness :
    (SimpleCache.mkCache (-5)).ttl = -5 ∧
    ((RateLimiter.mkLimiter 0 1000).isAllowed "x" 0).1 = false :=
  ⟨(C8_amended_no_construction_validation (-5) 0 1000).1,
    (C8_amended_no_construction_validation (-5) 0 1000).2.2.2.2
      (by decide) "x" 0⟩

/-- Counterexample to C2: `get` treats an entry as expired only when
`now > expiresAt` (strict comparison): with `ttl = 100`, an entry set at
time 0 has `expiresAt = 100`, and a `get` performed exactly at time 100
returns the stored value and leaves the entry in place, while the claim
demands "not found" whenever `now >= expiresAt`. -/
theorem C2_counterexample :
    ((((SimpleCache.mkCache 100).set "k" (JSValue.num 7) 0).get "k" 100).1
      = JSValue.num 7) ∧
    JSValue.num 7 ≠ JSValue.null ∧
    assocFind ((((SimpleCache.mkCache 100).set "k" (JSValue.num 7) 0).get
      "k" 100).2.cache) "k" = some ⟨JSValue.num 7, 100⟩ := by
  decide

/-- C2 as amended: an entry is expired only strictly after `expiresAt`:
for every well-formed cache state, if the entry for `key` is present and
`now > expiresAt`, then `get` removes the entry (lazy eviction) and
returns `null`; a `get` at exactly `expiresAt` still returns the value. -/
theorem C2_amended_strict_expiry (c : SimpleCache) (key : String)
    (item : CacheItem) (now : Int) (hwf : c.WellFormed)
    (hfind : assocFind c.cache key = some item)
    (hexp : now > item.expiresAt) :
    (c.get key now).1 = JSValue.null ∧
    assocFind (c.get key now).2.cache key = none := by
  simp only [SimpleCache.get, hfind]
  rw [if_pos hexp]
  exact ⟨rfl, assocFind_assocDelete_self c.cache key hwf⟩

/-- Witness for the amended C2: the entry set at time 0 with `ttl = 100`
is gone when read at time 101. -/
theorem C2_amended_strict_expiry_witness :
    ((SimpleCache.mkCache 100).set "k" (JSValue.num 7) 0).WellFormed ∧
    assocFind (((SimpleCache.mkCache 100).set "k" (JSValue.num 7) 0).cache)
      "k" = some ⟨JSValue.num 7, 100⟩ ∧
    (101 : Int) > 100 ∧
    (((((SimpleCache.mkCache 100).set "k" (JSValue.num 7) 0).get "k" 101).1
        = JSValue.null) ∧
      assocFind ((((SimpleCache.mkCache 100).set "k" (JSValue.num 7) 0).get
        "k" 101).2.cache) "k" = none) :=
  ⟨by decide, by decide, by decide,
    C2_amended_strict_expiry ((SimpleCache.mkCache 100).set "k"
        (JSValue.num 7) 0) "k" ⟨JSValue.num 7, 100⟩ 101 (by decide)
      (by decide) (by decide)⟩

/-- Counterexample to C3: `set` declares no `ttlMs` parameter, so the call
`set("k", v, 5)` at time 0 on a cache configured with `ttl = 60000`
ignores the `5` and stores `expiresAt = 60000 = now + defaultTtl`, not
`now + ttlMs = 5` as the claim requires. -/
theorem C3_counterexample :
    assocFind (((SimpleCache.mkCache 60000).setWithTtl "k" (JSValue.num 1)
      5 0).cache) "k" = some ⟨JSValue.num 1, 60000⟩ ∧
    (60000 : Int) ≠ 0 + 5 := by
  decide

/-- C3 as amended: `set` accepts no per-call TTL — a third argument is
ignored — and every insertion uses the cache's configured `ttl`: the entry
stored for `key` is exactly `{value, expiresAt = now + ttl}`. -/
theorem C3_amended_default_ttl_always (c : SimpleCache) (key : String)
    (v : JSValue) (ttlMs now : Int) :
    assocFind (c.setWithTtl key v ttlMs now).cache key
      = some ⟨v, now + c.ttl⟩ ∧
    c.setWithTtl key v ttlMs now = c.set key v now :=
  ⟨assocFind_assocSet_self _ _ _, rfl⟩

/-- Counterexample to C4: `delete` has no `return` statement, so it
evaluates to `undefined`, never a Boolean: deleting a present key returns
`undefined` (not `true`), and deleting the same key again returns
`undefined` (not `false`). -/
theorem C4_counterexample :
    ((((SimpleCache.mkCache 60000).set "k" (JSValue.num 1) 0).delete "k").1
      = JSValue.undefined) ∧
    JSValue.undefined ≠ JSValue.bool true ∧
    (((((SimpleCache.mkCache 60000).set "k" (JSValue.num 1) 0).delete
      "k").2.delete "k").1 = JSValue.undefined) ∧
    JSValue.undefined ≠ JSValue.bool false := by
  decide

/-- C4 as amended: `delete` removes the entry if present and is a harmless
no-op on an absent key (no error either way), but its result is always
`undefined` — the Boolean produced by the underlying map removal is
discarded, so the caller receives no removal indicator. -/
theorem C4_amended_delete_returns_undefined (c : SimpleCache) (key : String)
    (hwf : c.WellFormed) :
    (c.delete key).1 = JSValue.undefined ∧
    assocFind (c.delete key).2.cache key = none ∧
    ((c.delete key).2.delete key).1 = JSValue.undefined :=
  ⟨rfl, assocFind_assocDelete_self c.cache key hwf, rfl⟩

/-- Witness for the amended C4: deleting `"k"` from a one-entry cache
returns `undefined`, removes the entry, and a second delete also returns
`undefined`. -/
theorem C4_amended_delete_returns_undefined_witness :
    ((SimpleCache.mkCache 60000).set "k" (JSValue.num 1) 0).WellFormed ∧
    (((((SimpleCache.mkCache 60000).set "k" (JSValue.num 1) 0).delete
        "k").1 = JSValue.undefined) ∧
      assocFind ((((SimpleCache.mkCache 60000).set "k" (JSValue.num 1)
        0).delete "k").2.cache) "k" = none ∧
      ((((SimpleCache.mkCache 60000).set "k" (JSValue.num 1) 0).delete
        "k").2.delete "k").1 = JSValue.undefined) :=
  ⟨by decide,
    C4_amended_delete_returns_undefined ((SimpleCache.mkCache 60000).set
      "k" (JSValue.num 1) 0) "k" (by decide)⟩

/-- Counterexample to C5: the per-call `ttl` is ignored, so the round trip
is not guaranteed by `ttl > 0` alone: on a cache constructed with
`ttl = -1` (accepted unvalidated), `set("k", 42, 100)` followed by an
immediate `get("k")` returns `null`, not `42`, despite `100 > 0`. -/
theorem C5_counterexample :
    ((((SimpleCache.mkCache (-1)).setWithTtl "k" (JSValue.num 42) 100
      0).get "k" 0).1 = JSValue.null) ∧
    JSValue.null ≠ JSValue.num 42 ∧ (0 : Int) < 100 := by
  decide

/-- C5 as amended: the round trip holds whenever the cache's configured
`ttl` is non-negative (the per-call TTL argument being ignored): `set`
followed by `get` of the same key at the same instant returns exactly the
stored value. -/
theorem C5_amended_roundtrip (c : SimpleCache) (key : String) (v : JSValue)
    (now : Int) (httl : 0 ≤ c.ttl) :
    ((c.set key v now).get key now).1 = v := by
  simp only [SimpleCache.get, SimpleCache.set, assocFind_assocSet_self]
  rw [if_neg (by omega)]

/-- Witness for the amended C5: an immediate round trip through a cache
with the default configuration returns the stored value. -/
theorem C5_amended_roundtrip_witness :
    (0 : Int) ≤ (SimpleCache.mkCache 60000).ttl ∧
    (((SimpleCache.mkCache 60000).set "k" (JSValue.str "v") 0).get "k"
      0).1 = JSValue.str "v" :=
  ⟨by decide, C5_amended_roundtrip (SimpleCache.mkCache 60000) "k"
    (JSValue.str "v") 0 (by decide)⟩

/-- Counterexample to C7: there is no key validation — `set` with the
empty key silently stores the value (the following `get("")` returns it)
and `delete("")` completes normally, instead of failing with an
input-validation error. -/
theorem C7_counterexample :
    ((((SimpleCache.mkCache 60000).set "" (JSValue.num 3) 0).get "" 0).1
      = JSValue.num 3) ∧
    ((((SimpleCache.mkCache 60000).set "" (JSValue.num 3) 0).delete "").1
      = JSValue.undefined) := by
  decide

/-- C7 as amended: `set`, `get` and `delete` perform no key validation:
the empty key is handled exactly like any other key — `set("")` stores an
ordinary entry under `""`, and `delete("")` completes normally with result
`undefined`; no input-validation error is ever signalled. -/
theorem C7_amended_no_key_validation (c : SimpleCache) (v : JSValue)
    (now : Int) :
    assocFind (c.set "" v now).cache "" = some ⟨v, now + c.ttl⟩ ∧
    (c.delete "").1 = JSValue.undefined :=
  ⟨assocFind_assocSet_self _ _ _, rfl⟩

/-- C10: the not-found sentinel of `get` is the value `null` itself, so a
key cached with the value `null` is, before expiry, indistinguishable
through `get` from an absent key: the miss returns `null` and the hit on a
stored `null` returns the very same result. -/
theorem C10_null_indistinguishable (c : SimpleCache) (key : String)
    (now : Int) (habs : assocFind c.cache key = none) (httl : 0 ≤ c.ttl) :
    (c.get key now).1 = JSValue.null ∧
    ((c.set key JSValue.null now).get key now).1 = (c.get key now).1 := by
  have hmiss : (c.get key now).1 = JSValue.null := by
    simp [SimpleCache.get, habs]
  refine ⟨hmiss, ?_⟩
  rw [hmiss]
  simp only [SimpleCache.get, SimpleCache.set, assocFind_assocSet_self]
  rw [if_neg (by omega)]

/-- Witness for C10: on a fresh cache, reading the absent `"k"` and
reading `"k"` right after caching `null` under it both yield `null`. -/
theorem C10_null_indistinguishable_witness :
    assocFind (SimpleCache.mkCache 60000).cache "k" = none ∧
    (0 : Int) ≤ (SimpleCache.mkCache 60000).ttl ∧
    (((SimpleCache.mkCache 60000).get "k" 0).1 = JSValue.null ∧
      (((SimpleCache.mkCache 60000).set "k" JSValue.null 0).get "k" 0).1
        = ((SimpleCache.mkCache 60000).get "k" 0).1) :=
  ⟨rfl, by decide,
    C10_null_indistinguishable (SimpleCache.mkCache 60000) "k" 0 rfl
      (by decide)⟩
